import Mathlib

/-!
Verification development for the card-detection pipeline in
`backend/utils/image_processor.py` (class `CardCropper`).

Modelling conventions:
* Python floats are modelled as exact rationals (`ℚ`); all thresholds in the
  source are short decimal literals, and the claims are about the band
  structure of the comparisons, not about binary floating-point rounding.
* `int(x * p)` on a nonnegative float `p` (e.g. `int(w * 0.02)`,
  `int(w * 0.12)`) is modelled as natural-number floor division
  (`w * 2 / 100`, `w * 12 / 100`).
* Images are immutable grids: a height, a width, and a pixel function.
  The pixel type is abstract (`α`) where the code only slices, rotates or
  mirrors; colour-space conversion (`cv2.cvtColor` to HSV) is modelled by a
  pixel-wise conversion function passed as a parameter, since the claims
  depend only on both strips being converted the same way.
* OpenCV primitives whose full numerical algorithms are irrelevant to the
  claims (Canny, adaptive threshold, Gaussian blur, morphology) are fields of
  an operation record `CvOps`; primitives whose behaviour the claims mention
  directly (binary threshold, `inRange`, `bitwise_or/and/not`, mean, pixel
  counting, slicing, rotation) are given concrete pixel-level definitions.
-/

/-- A pixel in HSV colour space, one natural number per 8-bit channel. -/
structure HSVv where
  hu : ℕ
  sa : ℕ
  va : ℕ

/-- An immutable image: height, width, and a row-major pixel grid.
Mirrors the numpy array view `image.shape[:2] = (h, w)`. -/
structure Img (α : Type) where
  h : ℕ
  w : ℕ
  pix : ℕ → ℕ → α

/-- numpy slice `img[y1:y2, x1:x2]` (indices already nonnegative in all call
sites); numpy clamps slice bounds to the array extent. -/
def cropImg {α : Type} (img : Img α) (y1 y2 x1 x2 : ℕ) : Img α :=
  { h := min y2 img.h - min y1 img.h
    w := min x2 img.w - min x1 img.w
    pix := fun i j => img.pix (min y1 img.h + i) (min x1 img.w + j) }

/-- `cv2.rotate(image, cv2.ROTATE_90_CLOCKWISE)`: `dst(i, j) = src(h-1-j, i)`,
dimensions swap. -/
def rotate90cw {α : Type} (img : Img α) : Img α :=
  { h := img.w
    w := img.h
    pix := fun i j => img.pix (img.h - 1 - j) i }

/-- `cv2.rotate(image, cv2.ROTATE_90_COUNTERCLOCKWISE)`:
`dst(i, j) = src(j, w-1-i)`, dimensions swap. -/
def rotate90ccw {α : Type} (img : Img α) : Img α :=
  { h := img.w
    w := img.h
    pix := fun i j => img.pix j (img.w - 1 - i) }

/-- Horizontal mirror (`img[:, ::-1]`), used to state the orientation law of
the spec (swap the label-colour strips left for right). -/
def mirrorH {α : Type} (img : Img α) : Img α :=
  { h := img.h
    w := img.w
    pix := fun i j => img.pix i (img.w - 1 - j) }

/-- Number of pixels of `img` satisfying `p` — models `np.sum(mask > 0)`
style counting over a region. -/
def countPix {α : Type} (img : Img α) (p : α → Bool) : ℕ :=
  ∑ i ∈ Finset.range img.h, ∑ j ∈ Finset.range img.w,
    (if p (img.pix i j) then 1 else 0)

/-- `CardCropper.CARD_ASPECT_RATIO = 2.5 / 3.5` (standard card, 2.5in x 3.5in). -/
def cardAspectRatio : ℚ := 2.5 / 3.5

/-- `CardCropper.ASPECT_RATIO_TOLERANCE = 0.30`. -/
def aspectRatioTolerance : ℚ := 0.30

/-- `CardCropper.MIN_CARD_AREA_RATIO = 0.01`. -/
def minCardAreaRatio : ℚ := 0.01

/-- `CardCropper.MAX_CARD_AREA_RATIO = 1.00` (declared in the source with the
comment "Allow cards that fill the frame"; note the contour filter itself
uses a hard-coded `0.98` instead of this constant). -/
def maxCardAreaRatio : ℚ := 1.00

/-- `CardCropper.MARGIN_INSET_PERCENT = 0.02`, as a percentage numerator:
`int(side * 0.02)` is modelled as `side * marginInsetNum / 100`. -/
def marginInsetNum : ℕ := 2

/-- `CardCropper._calculate_confidence_advanced` (lines 403-487), translated
clause by clause; the accumulating `confidence += ...` is written as one sum,
and the final `return min(1.0, confidence)` is kept. -/
def calculate_confidence_advanced (area_ratio aspect_ratio : ℚ)
    (num_vertices : ℕ) (solidity : ℚ) (_has_parent : Bool) : ℚ :=
  let aspect_diff := |aspect_ratio - cardAspectRatio|
  let aspect_score : ℚ :=
    if aspect_diff < 0.08 then 1.0
    else if aspect_diff < 0.15 then 0.95
    else if aspect_diff < 0.20 then 0.85
    else if aspect_diff < aspectRatioTolerance then 0.75
    else 0.5
  let area_score : ℚ :=
    if 0.40 ≤ area_ratio ∧ area_ratio ≤ 0.70 then 1.0
    else if 0.70 < area_ratio ∧ area_ratio ≤ 0.95 then 0.98
    else if 0.30 ≤ area_ratio ∧ area_ratio < 0.40 then 0.95
    else if 0.15 ≤ area_ratio ∧ area_ratio < 0.30 then 0.90
    else if 0.05 ≤ area_ratio ∧ area_ratio < 0.15 then 0.85
    else 0.75
  let vertex_score : ℚ :=
    if num_vertices = 4 then 1.0
    else if num_vertices = 5 then 0.95
    else if num_vertices = 6 then 0.85
    else if num_vertices = 7 then 0.75
    else 0.65
  let solidity_score : ℚ :=
    if solidity > 0.95 then 1.0
    else if solidity > 0.90 then 0.95
    else if solidity > 0.85 then 0.90
    else max 0.70 solidity
  min 1.0 (aspect_score * 0.40 + area_score * 0.30 +
    vertex_score * 0.20 + solidity_score * 0.10)

/-- Modelled from the spec (4.4): aspect sub-score, a step function of
the distance of the aspect ratio from the 2.5/3.5 card ratio, with band
values 1.0 / 0.95 / 0.85 / 0.75 / 0.5 at cutoffs 0.08 / 0.15 / 0.20 / 0.30. -/
def aspectScoreSpec (aspect_ratio : ℚ) : ℚ :=
  let diff := |aspect_ratio - 2.5 / 3.5|
  if diff < 0.08 then 1.0
  else if diff < 0.15 then 0.95
  else if diff < 0.20 then 0.85
  else if diff < 0.30 then 0.75
  else 0.5

/-- Modelled from the spec (4.4): area sub-score, piecewise over area-ratio
bands: 1.0 on [0.40,0.70], 0.98 on (0.70,0.95], 0.95 on [0.30,0.40),
0.90 on [0.15,0.30), 0.85 on [0.05,0.15), else 0.75. -/
def areaScoreSpec (area_ratio : ℚ) : ℚ :=
  if 0.40 ≤ area_ratio ∧ area_ratio ≤ 0.70 then 1.0
  else if 0.70 < area_ratio ∧ area_ratio ≤ 0.95 then 0.98
  else if 0.30 ≤ area_ratio ∧ area_ratio < 0.40 then 0.95
  else if 0.15 ≤ area_ratio ∧ area_ratio < 0.30 then 0.90
  else if 0.05 ≤ area_ratio ∧ area_ratio < 0.15 then 0.85
  else 0.75

/-- Modelled from the spec (4.4): vertex sub-score 1.0 / 0.95 / 0.85 / 0.75
at 4 / 5 / 6 / 7 vertices, else 0.65. -/
def vertexScoreSpec (num_vertices : ℕ) : ℚ :=
  if num_vertices = 4 then 1.0
  else if num_vertices = 5 then 0.95
  else if num_vertices = 6 then 0.85
  else if num_vertices = 7 then 0.75
  else 0.65

/-- Modelled from the spec (4.4): solidity sub-score 1.0 if solidity > 0.95,
0.95 if > 0.90, 0.90 if > 0.85, else max(0.70, solidity). -/
def solidityScoreSpec (solidity : ℚ) : ℚ :=
  if solidity > 0.95 then 1.0
  else if solidity > 0.90 then 0.95
  else if solidity > 0.85 then 0.90
  else max 0.70 solidity

lemma aspectScoreSpec_bounds (a : ℚ) :
    0.5 ≤ aspectScoreSpec a ∧ aspectScoreSpec a ≤ 1 := by
  simp only [aspectScoreSpec]
  split_ifs <;> norm_num

lemma areaScoreSpec_bounds (r : ℚ) :
    0.75 ≤ areaScoreSpec r ∧ areaScoreSpec r ≤ 1 := by
  unfold areaScoreSpec
  split_ifs <;> norm_num

lemma vertexScoreSpec_bounds (v : ℕ) :
    0.65 ≤ vertexScoreSpec v ∧ vertexScoreSpec v ≤ 1 := by
  unfold vertexScoreSpec
  split_ifs <;> norm_num

lemma solidityScoreSpec_bounds (s : ℚ) :
    0.70 ≤ solidityScoreSpec s ∧ solidityScoreSpec s ≤ 1 := by
  unfold solidityScoreSpec
  split_ifs with h1 h2 h3
  · norm_num
  · norm_num
  · norm_num
  · push_neg at h3
    refine ⟨le_max_left _ _, max_le (by norm_num) (by linarith)⟩

/-- The code's confidence equals the spec's weighted sum of sub-scores:
the trailing `min(1.0, ...)` never bites because the weights sum to 1 and
every sub-score is at most 1. -/
lemma calculate_confidence_eq_spec (r a : ℚ) (v : ℕ) (s : ℚ) (hp : Bool) :
    calculate_confidence_advanced r a v s hp =
      aspectScoreSpec a * 0.40 + areaScoreSpec r * 0.30 +
      vertexScoreSpec v * 0.20 + solidityScoreSpec s * 0.10 := by
  have ha := aspectScoreSpec_bounds a
  have hr := areaScoreSpec_bounds r
  have hv := vertexScoreSpec_bounds v
  have hs := solidityScoreSpec_bounds s
  have hle : aspectScoreSpec a * 0.40 + areaScoreSpec r * 0.30 +
      vertexScoreSpec v * 0.20 + solidityScoreSpec s * 0.10 ≤ 1 := by
    nlinarith [ha.2, hr.2, hv.2, hs.2]
  have : calculate_confidence_advanced r a v s hp =
      min 1 (aspectScoreSpec a * 0.40 + areaScoreSpec r * 0.30 +
        vertexScoreSpec v * 0.20 + solidityScoreSpec s * 0.10) := by
    unfold calculate_confidence_advanced aspectScoreSpec areaScoreSpec
      vertexScoreSpec solidityScoreSpec cardAspectRatio aspectRatioTolerance
    norm_num
  rw [this, min_eq_right hle]

/-- The confidence score is always in [0, 1], for every combination of
inputs (shared helper for several claims; in fact it is bounded below by
0.625, but [0,1] is what the spec states). -/
lemma calculate_confidence_mem (r a : ℚ) (v : ℕ) (s : ℚ) (hp : Bool) :
    0 ≤ calculate_confidence_advanced r a v s hp ∧
      calculate_confidence_advanced r a v s hp ≤ 1 := by
  rw [calculate_confidence_eq_spec]
  have ha := aspectScoreSpec_bounds a
  have hr := areaScoreSpec_bounds r
  have hv := vertexScoreSpec_bounds v
  have hs := solidityScoreSpec_bounds s
  constructor <;> nlinarith [ha.1, ha.2, hr.1, hr.2, hv.1, hv.2, hs.1, hs.2]

/-- Measured statistics of one contour returned by `cv2.findContours` on the
segmentation mask: `cv2.contourArea`, `cv2.boundingRect`, the vertex count of
`cv2.approxPolyDP(contour, 0.02 * peri, True)`, and the convex-hull area.
These are the only values lines 183-229 read from a contour. -/
structure ContourStats where
  area : ℚ
  x : ℕ
  y : ℕ
  w : ℕ
  h : ℕ
  vertices : ℕ
  hullArea : ℚ
deriving DecidableEq

/-- Normalized bounding-box aspect ratio of a contour:
`min(w, h) / max(w, h) if max(w, h) > 0 else 0` (line 195). -/
def aspectOf (c : ContourStats) : ℚ :=
  if max c.w c.h > 0 then (min c.w c.h : ℚ) / (max c.w c.h : ℚ) else 0

/-- A surviving candidate (the dictionary appended at line 223). -/
structure Candidate where
  bx : ℕ
  by' : ℕ
  bw : ℕ
  bh : ℕ
  confidence : ℚ
  area_ratio : ℚ
  aspect_ratio : ℚ
  solidity : ℚ
deriving DecidableEq

/-- Loop body of `_detect_card_contour_advanced` for one contour
(lines 183-229): the three `continue` filters, then solidity and
confidence computation.  Returns `none` exactly when the contour is
discarded. -/
def mkCandidate (imageArea : ℚ) (c : ContourStats) : Option Candidate :=
  let area_ratio := c.area / imageArea
  if area_ratio < minCardAreaRatio ∨ area_ratio > 0.98 then none
  else
    let aspect_ratio := aspectOf c
    let aspect_diff := |aspect_ratio - cardAspectRatio|
    if aspect_diff > aspectRatioTolerance then none
    else if ¬ (4 ≤ c.vertices ∧ c.vertices ≤ 12) then none
    else
      let solidity := if c.hullArea > 0 then c.area / c.hullArea else 0
      some { bx := c.x, by' := c.y, bw := c.w, bh := c.h
             confidence := calculate_confidence_advanced area_ratio
               aspect_ratio c.vertices solidity false
             area_ratio := area_ratio
             aspect_ratio := aspect_ratio
             solidity := solidity }

/-- Python `max(candidates, key=lambda x: x["confidence"])`: the first
element attaining the maximum (later elements replace the current best only
when strictly greater). -/
def pickBest (c : Candidate) (rest : List Candidate) : Candidate :=
  rest.foldl (fun b x => if x.confidence > b.confidence then x else b) c

/-- Candidate phase of `_detect_card_contour_advanced` (lines 177-244), the
part downstream of mask construction: build candidates from the measured
contour statistics, return `None` when none survive, otherwise the
best-scoring bounding box with its confidence. The `is_screenshot` flag is
computed earlier and merely passed through, so it is not a parameter here. -/
def detect_card (imageArea : ℚ) (contours : List ContourStats) :
    Option ((ℕ × ℕ × ℕ × ℕ) × ℚ) :=
  match contours.filterMap (mkCandidate imageArea) with
  | [] => none
  | c :: rest =>
      let best := pickBest c rest
      some ((best.bx, best.by', best.bw, best.bh), best.confidence)

lemma pickBest_mem (c : Candidate) (rest : List Candidate) :
    pickBest c rest = c ∨ pickBest c rest ∈ rest := by
  induction rest generalizing c with
  | nil => left; rfl
  | cons x xs ih =>
      unfold pickBest at *
      simp only [List.foldl_cons]
      by_cases hx : x.confidence > c.confidence
      · simp only [if_pos hx]
        rcases ih x with h | h
        · right; simp [h]
        · right; simp [h]
      · simp only [if_neg hx]
        rcases ih c with h | h
        · left; exact h
        · right; simp [h]

lemma mkCandidate_conf_mem (imageArea : ℚ) (c : ContourStats) (cand : Candidate)
    (h : mkCandidate imageArea c = some cand) :
    0 ≤ cand.confidence ∧ cand.confidence ≤ 1 := by
  simp only [mkCandidate] at h
  split_ifs at h
  · rw [Option.some.injEq] at h
    rw [← h]
    exact calculate_confidence_mem (c.area / imageArea) (aspectOf c)
      c.vertices (c.area / c.hullArea) false
  · rw [Option.some.injEq] at h
    rw [← h]
    exact calculate_confidence_mem (c.area / imageArea) (aspectOf c)
      c.vertices 0 false

/-- Every confidence produced by `detect_card` lies in [0, 1]. -/
lemma detect_card_conf_mem (imageArea : ℚ) (cs : List ContourStats)
    (bb : ℕ × ℕ × ℕ × ℕ) (conf : ℚ)
    (h : detect_card imageArea cs = some (bb, conf)) :
    0 ≤ conf ∧ conf ≤ 1 := by
  unfold detect_card at h
  rcases hcs : cs.filterMap (mkCandidate imageArea) with _ | ⟨c, rest⟩
  · rw [hcs] at h; simp at h
  · rw [hcs] at h
    simp only [Option.some.injEq, Prod.mk.injEq] at h
    have hbest : pickBest c rest ∈ c :: rest := by
      rcases pickBest_mem c rest with hh | hh
      · rw [hh]; exact List.mem_cons_self _ _
      · exact List.mem_cons_of_mem _ hh
    rw [← hcs] at hbest
    rcases List.mem_filterMap.mp hbest with ⟨orig, _, horig⟩
    have := mkCandidate_conf_mem imageArea orig _ horig
    rw [← h.2]
    exact this

/-- Pixel test for the two red hue ranges of `_rotate_to_upright`
(lines 569-572): `inRange([0,120,100],[10,255,255])` or
`inRange([160,120,100],[180,255,255])`.  The two numpy masks are added;
the ranges are hue-disjoint, so the sum of the masks is positive exactly
when one of the two range tests passes. -/
def isRedPixel (q : HSVv) : Bool :=
  decide ((q.hu ≤ 10 ∧ 120 ≤ q.sa ∧ q.sa ≤ 255 ∧ 100 ≤ q.va ∧ q.va ≤ 255) ∨
    (160 ≤ q.hu ∧ q.hu ≤ 180 ∧ 120 ≤ q.sa ∧ q.sa ≤ 255 ∧ 100 ≤ q.va ∧ q.va ≤ 255))

/-- Pixel test for the navy range of `_rotate_to_upright` (lines 580-581):
`inRange([105,70,30],[125,255,150])`. -/
def isBluePixel (q : HSVv) : Bool :=
  decide (105 ≤ q.hu ∧ q.hu ≤ 125 ∧ 70 ≤ q.sa ∧ q.sa ≤ 255 ∧
    30 ≤ q.va ∧ q.va ≤ 150)

/-- `strip_width = int(w * 0.12)` (line 559). -/
def stripWidth {α : Type} (img : Img α) : ℕ := img.w * 12 / 100

/-- `left_strip = image[:, :strip_width]` (line 560). -/
def leftStrip {α : Type} (img : Img α) : Img α :=
  cropImg img 0 img.h 0 (stripWidth img)

/-- `right_strip = image[:, w - strip_width:]` (line 561). -/
def rightStrip {α : Type} (img : Img α) : Img α :=
  cropImg img 0 img.h (img.w - stripWidth img) img.w

/-- Label score of one strip: `max(red_count, blue_count * 1.5)`
(lines 588-589); `hsvc` models the pixel-wise `cv2.cvtColor(..., BGR2HSV)`. -/
def psaScore {α : Type} (hsvc : α → HSVv) (strip : Img α) : ℚ :=
  max ((countPix strip (fun a => isRedPixel (hsvc a)) : ℚ))
    ((countPix strip (fun a => isBluePixel (hsvc a)) : ℚ) * 1.5)

/-- `left_psa_score` (line 588). -/
def psaScoreLeft {α : Type} (hsvc : α → HSVv) (img : Img α) : ℚ :=
  psaScore hsvc (leftStrip img)

/-- `right_psa_score` (line 589). -/
def psaScoreRight {α : Type} (hsvc : α → HSVv) (img : Img α) : ℚ :=
  psaScore hsvc (rightStrip img)

/-- The branch condition at line 597: `right_psa_score > left_psa_score`,
i.e. `true` exactly when the code rotates counter-clockwise. -/
def rotateDecisionCCW {α : Type} (hsvc : α → HSVv) (img : Img α) : Bool :=
  decide (psaScoreRight hsvc img > psaScoreLeft hsvc img)

/-- Model token for the `cv2.error` that `cv2.cvtColor` raises on an empty
source array (its `!_src.empty()` assertion).  `_rotate_to_upright` hits it
at line 564 whenever `left_strip` is empty, i.e. whenever the crop height
is 0 or `strip_width = int(w * 0.12)` is 0 (every crop of width ≤ 8). -/
def cvtColorEmptyError : String := "OpenCV cvtColor: !_src.empty()"

/-- `CardCropper._rotate_to_upright` (lines 541-606): slice the two 12%
edge strips and convert them to HSV — `cv2.cvtColor` raises when the strip
is empty (height 0 or strip width `int(w * 0.12)` = 0, the latter for every
width ≤ 8), modelled as `Except.error`; otherwise rotate counter-clockwise
when the right strip's label score is strictly greater, else (including the
zero-signal tie) clockwise. -/
def rotate_to_upright {α : Type} (hsvc : α → HSVv) (img : Img α) :
    Except String (Img α) :=
  if (leftStrip img).h = 0 ∨ (leftStrip img).w = 0 then
    Except.error cvtColorEmptyError
  else if psaScoreRight hsvc img > psaScoreLeft hsvc img then
    Except.ok (rotate90ccw img)
  else
    Except.ok (rotate90cw img)

/-- Lines 535-537 of `_extract_card_bbox`: rotate only when the crop is
landscape (`crop_w > crop_h`); a raise inside `_rotate_to_upright`
propagates. -/
def uprightIfSideways {α : Type} (hsvc : α → HSVv) (img : Img α) :
    Except String (Img α) :=
  if img.w > img.h then rotate_to_upright hsvc img else Except.ok img

/-- Lines 503-525 of `_extract_card_bbox`: margin inset, clamp, and the
fallback to the un-inset box; returns the slice coordinates
`(x1, y1, x2, y2)`. -/
def insetRegion (imgW imgH x y w h : ℕ) (apply_margin : Bool) :
    ℕ × ℕ × ℕ × ℕ :=
  let margin_x := if apply_margin then w * marginInsetNum / 100 else 0
  let margin_y := if apply_margin then h * marginInsetNum / 100 else 0
  let x1 := max 0 (x + margin_x)
  let y1 := max 0 (y + margin_y)
  let x2 := min imgW (x + w - margin_x)
  let y2 := min imgH (y + h - margin_y)
  if x2 ≤ x1 ∨ y2 ≤ y1 then (x, y, x + w, y + h) else (x1, y1, x2, y2)

/-- Modelled from the spec (4.5) and the amended C6: shrink each side by 2%
of that side's length when `apply_margin` is set and by nothing otherwise,
clamp the box to the image bounds (both coordinates, both axes), and if the
clamped box has zero or negative width or height fall back to the un-inset
bounding box `(x, y, x+w, y+h)`. -/
def insetRegionSpec (imgW imgH x y w h : ℕ) (apply_margin : Bool) :
    ℕ × ℕ × ℕ × ℕ :=
  let mx := if apply_margin then w * marginInsetNum / 100 else 0
  let my := if apply_margin then h * marginInsetNum / 100 else 0
  let cx1 := min (max 0 (x + mx)) imgW
  let cy1 := min (max 0 (y + my)) imgH
  let cx2 := min (max 0 (x + w - mx)) imgW
  let cy2 := min (max 0 (y + h - my)) imgH
  if cx2 ≤ cx1 ∨ cy2 ≤ cy1 then (x, y, x + w, y + h)
  else (cx1, cy1, cx2, cy2)

/-- `CardCropper._extract_card_bbox` (lines 489-539): slice the inset
region out of the image, then rotate to upright if the crop is landscape.
The source's declared return type is `Optional[np.ndarray]` (hence the
`Option` in the result), every non-raising path returns an image
(`Except.ok (some ...)`), and the empty-strip `cvtColor` raise inside
`_rotate_to_upright` propagates out of this function (`Except.error`). -/
def extract_card_bbox {α : Type} (hsvc : α → HSVv) (image : Img α)
    (bbox : ℕ × ℕ × ℕ × ℕ) (apply_margin : Bool) :
    Except String (Option (Img α)) :=
  let r := insetRegion image.w image.h bbox.1 bbox.2.1 bbox.2.2.1 bbox.2.2.2
    apply_margin
  let cropped := cropImg image r.2.1 r.2.2.2 r.1 r.2.2.1
  (uprightIfSideways hsvc cropped).map some

/-- `cv2.inRange(hsv, lo, hi)`: 255 where every channel lies within the
bounds, else 0. -/
def inRangeMask (img : Img HSVv) (lo hi : HSVv) : Img ℕ :=
  { h := img.h
    w := img.w
    pix := fun i j =>
      let q := img.pix i j
      if lo.hu ≤ q.hu ∧ q.hu ≤ hi.hu ∧ lo.sa ≤ q.sa ∧ q.sa ≤ hi.sa ∧
          lo.va ≤ q.va ∧ q.va ≤ hi.va then 255 else 0 }

/-- `cv2.threshold(gray, t, 255, cv2.THRESH_BINARY)`: 255 where the pixel is
strictly above `t`, else 0. -/
def thresholdBin (g : Img ℕ) (t : ℕ) : Img ℕ :=
  { h := g.h, w := g.w, pix := fun i j => if g.pix i j > t then 255 else 0 }

/-- `cv2.threshold(gray, t, 255, cv2.THRESH_BINARY_INV)`: 255 where the
pixel is at most `t`, else 0. -/
def thresholdBinInv (g : Img ℕ) (t : ℕ) : Img ℕ :=
  { h := g.h, w := g.w, pix := fun i j => if g.pix i j > t then 0 else 255 }

/-- `cv2.bitwise_or` on same-size masks (dimensions taken from the first). -/
def bitwiseOr (a b : Img ℕ) : Img ℕ :=
  { h := a.h, w := a.w, pix := fun i j => (a.pix i j) ||| (b.pix i j) }

/-- `cv2.bitwise_and` on same-size masks. -/
def bitwiseAnd (a b : Img ℕ) : Img ℕ :=
  { h := a.h, w := a.w, pix := fun i j => (a.pix i j) &&& (b.pix i j) }

/-- `cv2.bitwise_not` on an 8-bit mask (`v xor 255`). -/
def bitwiseNot (a : Img ℕ) : Img ℕ :=
  { h := a.h, w := a.w, pix := fun i j => (a.pix i j) ^^^ 255 }

/-- `np.mean(gray)` as an exact rational. -/
def meanBrightness (g : Img ℕ) : ℚ :=
  ((∑ i ∈ Finset.range g.h, ∑ j ∈ Finset.range g.w, g.pix i j : ℕ) : ℚ) /
    ((g.h * g.w : ℕ) : ℚ)

/-- `CardCropper._detect_wood_background` (lines 330-353): fraction of
pixels inside `inRange([10,30,30],[30,200,180])` must exceed 15%. -/
def detect_wood_background (hsvI : Img HSVv) : Bool :=
  let wood_mask := inRangeMask hsvI ⟨10, 30, 30⟩ ⟨30, 200, 180⟩
  let wood_ratio : ℚ :=
    ((countPix wood_mask (fun v => decide (v > 0)) : ℕ) : ℚ) /
      ((wood_mask.h * wood_mask.w : ℕ) : ℚ)
  decide (wood_ratio > 0.15)

/-- OpenCV primitives whose internal numerics the claims do not mention:
each field records the parameters the source passes (Canny hysteresis
thresholds; adaptive-threshold block size and bias; blur kernel size;
dilation/morphology kernel size and iteration count). -/
structure CvOps where
  canny : Img ℕ → ℕ → ℕ → Img ℕ
  adaptiveThresholdInv : Img ℕ → ℕ → ℕ → Img ℕ
  gaussianBlur : Img ℕ → ℕ → Img ℕ
  dilate : Img ℕ → ℕ → ℕ → Img ℕ
  morphClose : Img ℕ → ℕ → ℕ → Img ℕ
  morphOpen : Img ℕ → ℕ → ℕ → Img ℕ

/-- `CardCropper._detect_card_on_wood` (lines 355-401), statement for
statement: exclude dilated wood tones, OR together edges, bright pixels and
blue tones, AND with the non-wood mask, then 7x7 close (3 iterations) and
open (1 iteration). -/
def detect_card_on_wood (ops : CvOps) (gray : Img ℕ) (hsvI : Img HSVv) :
    Img ℕ :=
  let wood_mask := inRangeMask hsvI ⟨8, 25, 25⟩ ⟨35, 200, 180⟩
  let wood_mask := ops.dilate wood_mask 5 1
  let non_wood_mask := bitwiseNot wood_mask
  let blurred := ops.gaussianBlur gray 5
  let edges := ops.canny blurred 50 150
  let bright_mask := thresholdBin gray 180
  let blue_mask := inRangeMask hsvI ⟨90, 20, 30⟩ ⟨130, 255, 200⟩
  let combined := bitwiseOr edges bright_mask
  let combined := bitwiseOr combined blue_mask
  let combined := bitwiseAnd combined non_wood_mask
  let combined := ops.morphClose combined 7 3
  ops.morphOpen combined 7 1

/-- Strategy selection and mask cleanup of `_detect_card_contour_advanced`
(lines 136-168): wood strategy first, else dark-background strategy when
mean luminance < 100, else light-background strategy; the chosen mask then
gets a 5x5 close (2 iterations) followed by a 5x5 open (1 iteration).
`gray` and `hsvI` model the two `cv2.cvtColor` outputs of lines 120-121. -/
def segmentMask (ops : CvOps) (gray : Img ℕ) (hsvI : Img HSVv) : Img ℕ :=
  let combined :=
    if detect_wood_background hsvI then
      detect_card_on_wood ops gray hsvI
    else if meanBrightness gray < 100 then
      bitwiseOr (thresholdBin gray 40) (ops.canny gray 50 150)
    else
      let adaptive_thresh := ops.adaptiveThresholdInv gray 11 2
      let edges := ops.canny gray 30 100
      let shadow_thresh := thresholdBinInv gray 200
      bitwiseOr (bitwiseOr edges shadow_thresh) adaptive_thresh
  ops.morphOpen (ops.morphClose combined 5 2) 5 1

/-- The structured result dictionary of `crop_card`; optional fields model
keys absent from some of the returned dictionaries.  `cropped_image` is
`true` when the base64 payload key is present (the PNG encoding itself is
outside the model). -/
structure CropOutcome where
  success : Bool
  message : String
  error : Option String
  confidence : Option ℚ
  original_size : Option (List ℕ)
  cropped_size : Option (List ℕ)
  cropped_image : Bool

/-- `CardCropper.crop_card` (lines 30-105).  `decoded` is the result of
`cv2.imdecode` (`none` = decode failure); `contours` are the measured
statistics of the contours `cv2.findContours` yields on the segmentation
mask; `is_screenshot` is the screenshot classifier's output, threaded to
the margin flag exactly as at line 75.  The extraction stage can raise (the
empty-strip `cvtColor` crash inside `_rotate_to_upright`, reachable for
landscape crops of width ≤ 8); the raise propagates to the generic
`except` handler at lines 99-105, which returns the
`f"Error processing image: {e}"` dictionary with an `error` field and
neither `original_size` nor `confidence` — modelled by the `Except.error`
branch below.  Every path returns a structured dictionary. -/
def crop_card {α : Type} (hsvc : α → HSVv) (decoded : Option (Img α))
    (contours : List ContourStats) (is_screenshot : Bool) : CropOutcome :=
  match decoded with
  | none =>
      { success := false
        message := "Failed to decode image"
        error := some "Invalid image format"
        confidence := none
        original_size := none
        cropped_size := none
        cropped_image := false }
  | some image =>
      let original_h := image.h
      let original_w := image.w
      match detect_card ((original_h : ℚ) * (original_w : ℚ)) contours with
      | none =>
          { success := false
            message := "No card detected in image. Please ensure the card is clearly visible."
            error := none
            confidence := some 0.0
            original_size := some [original_w, original_h]
            cropped_size := none
            cropped_image := false }
      | some (card_bbox, confidence) =>
          match extract_card_bbox hsvc image card_bbox (!is_screenshot) with
          | Except.error e =>
              { success := false
                message := "Error processing image: " ++ e
                error := some e
                confidence := none
                original_size := none
                cropped_size := none
                cropped_image := false }
          | Except.ok none =>
              { success := false
                message := "Failed to extract card from image"
                error := none
                confidence := some confidence
                original_size := some [original_w, original_h]
                cropped_size := none
                cropped_image := false }
          | Except.ok (some cropped_card) =>
              { success := true
                message := "Card successfully detected and cropped"
                error := none
                confidence := some confidence
                original_size := some [original_w, original_h]
                cropped_size := some [cropped_card.w, cropped_card.h]
                cropped_image := true }

lemma sum_range_reflect_shift (n m : ℕ) (hnm : n ≤ m) (g : ℕ → ℕ) :
    ∑ j ∈ Finset.range n, g (m - 1 - j) = ∑ j ∈ Finset.range n, g (m - n + j) := by
  rw [← Finset.sum_range_reflect (fun j => g (m - n + j)) n]
  refine Finset.sum_congr rfl (fun j hj => ?_)
  simp only [Finset.mem_range] at hj
  congr 1
  omega

lemma countPix_leftStrip_mirrorH {α : Type} (img : Img α) (p : α → Bool) :
    countPix (leftStrip (mirrorH img)) p = countPix (rightStrip img) p := by
  have hsw : img.w * 12 / 100 ≤ img.w := by omega
  simp only [countPix, leftStrip, rightStrip, cropImg, mirrorH, stripWidth,
    Nat.min_self, Nat.zero_add, Nat.sub_zero, Nat.zero_min, Nat.min_eq_left hsw,
    Nat.min_eq_left (Nat.sub_le img.w (img.w * 12 / 100)),
    Nat.sub_sub_self hsw]
  refine Finset.sum_congr rfl (fun i _ => ?_)
  exact sum_range_reflect_shift (img.w * 12 / 100) img.w hsw
    (fun t => if p (img.pix i t) then 1 else 0)

lemma countPix_rightStrip_mirrorH {α : Type} (img : Img α) (p : α → Bool) :
    countPix (rightStrip (mirrorH img)) p = countPix (leftStrip img) p := by
  have hsw : img.w * 12 / 100 ≤ img.w := by omega
  simp only [countPix, leftStrip, rightStrip, cropImg, mirrorH, stripWidth,
    Nat.min_self, Nat.zero_add, Nat.sub_zero, Nat.zero_min, Nat.min_eq_left hsw,
    Nat.min_eq_left (Nat.sub_le img.w (img.w * 12 / 100)),
    Nat.sub_sub_self hsw]
  refine Finset.sum_congr rfl (fun i _ => ?_)
  have hstep : ∀ j ∈ Finset.range (img.w * 12 / 100),
      (if p (img.pix i (img.w - 1 - (img.w - img.w * 12 / 100 + j)))
        then (1 : ℕ) else 0) =
      (if p (img.pix i (img.w * 12 / 100 - 1 - j)) then (1 : ℕ) else 0) := by
    intro j hj
    simp only [Finset.mem_range] at hj
    have hidx : img.w - 1 - (img.w - img.w * 12 / 100 + j) =
        img.w * 12 / 100 - 1 - j := by omega
    rw [hidx]
  rw [Finset.sum_congr rfl hstep]
  exact Finset.sum_range_reflect (fun t => if p (img.pix i t) then 1 else 0) _

lemma psaScoreLeft_mirrorH {α : Type} (hsvc : α → HSVv) (img : Img α) :
    psaScoreLeft hsvc (mirrorH img) = psaScoreRight hsvc img := by
  unfold psaScoreLeft psaScoreRight psaScore
  rw [countPix_leftStrip_mirrorH, countPix_leftStrip_mirrorH]

lemma psaScoreRight_mirrorH {α : Type} (hsvc : α → HSVv) (img : Img α) :
    psaScoreRight hsvc (mirrorH img) = psaScoreLeft hsvc img := by
  unfold psaScoreLeft psaScoreRight psaScore
  rw [countPix_rightStrip_mirrorH, countPix_rightStrip_mirrorH]

lemma insetRegion_eq_spec (imgW imgH x y w h : ℕ) (m : Bool) :
    insetRegion imgW imgH x y w h m = insetRegionSpec imgW imgH x y w h m := by
  cases m <;>
    (simp only [insetRegion, insetRegionSpec, marginInsetNum,
       Bool.false_eq_true, if_false, eq_self_iff_true, if_true]
     split_ifs with h1 h2 <;>
       first
         | rfl
         | (exfalso; omega)
         | (simp only [Prod.mk.injEq]; omega))

lemma insetRegion_false_raw (imgW imgH x y w h : ℕ)
    (hx : x + w ≤ imgW) (hy : y + h ≤ imgH) :
    insetRegion imgW imgH x y w h false = (x, y, x + w, y + h) := by
  simp only [insetRegion, Bool.false_eq_true, if_false]
  split_ifs with h1 <;>
    first
      | rfl
      | (simp only [Prod.mk.injEq]; omega)

lemma except_map_some_ne_ok_none {ε α : Type} (x : Except ε α) :
    x.map some ≠ Except.ok (none : Option α) := by
  cases x <;> simp [Except.map]

lemma except_map_error_inv {ε α β : Type} (f : α → β) (x : Except ε α)
    (e : ε) (h : x.map f = Except.error e) : x = Except.error e := by
  cases x <;> simp_all [Except.map]

/-- The only exception the model's rotation stage raises is the
empty-strip `cvtColor` error. -/
lemma uprightIfSideways_error {α : Type} (hsvc : α → HSVv) (img : Img α)
    (e : String) (h : uprightIfSideways hsvc img = Except.error e) :
    e = cvtColorEmptyError := by
  simp only [uprightIfSideways, rotate_to_upright] at h
  split_ifs at h
  simp_all

/-- The only exception escaping `_extract_card_bbox` is the empty-strip
`cvtColor` error from `_rotate_to_upright`. -/
lemma extract_card_bbox_error {α : Type} (hsvc : α → HSVv) (image : Img α)
    (bbox : ℕ × ℕ × ℕ × ℕ) (m : Bool) (e : String)
    (h : extract_card_bbox hsvc image bbox m = Except.error e) :
    e = cvtColorEmptyError := by
  simp only [extract_card_bbox] at h
  exact uprightIfSideways_error hsvc _ e (except_map_error_inv some _ e h)

/-- C5: for every candidate, the code's confidence equals the fixed
weighted sum 0.40·aspect + 0.30·area + 0.20·vertex + 0.10·solidity of the
spec's band values (the trailing `min(1.0, ·)` in the code never changes
the value), and the total lies in [0, 1] for any input values whatsoever. -/
theorem confidence_matches_spec_bands (r a : ℚ) (v : ℕ) (s : ℚ) (hp : Bool) :
    calculate_confidence_advanced r a v s hp =
        0.40 * aspectScoreSpec a + 0.30 * areaScoreSpec r +
        0.20 * vertexScoreSpec v + 0.10 * solidityScoreSpec s ∧
      0 ≤ calculate_confidence_advanced r a v s hp ∧
      calculate_confidence_advanced r a v s hp ≤ 1 := by
  refine ⟨?_, calculate_confidence_mem r a v s hp⟩
  rw [calculate_confidence_eq_spec]
  ring

/-- C3 counterexample: a contour whose area ratio is 0.99 satisfies every
bound the claim lists (MIN_CARD_AREA_RATIO ≤ ratio ≤ MAX_CARD_AREA_RATIO,
aspect within tolerance, 4 ≤ vertices ≤ 12), yet the extractor discards it,
because the filter at line 188 uses the hard-coded upper cutoff 0.98
instead of MAX_CARD_AREA_RATIO = 1.00. -/
def contourC3 : ContourStats :=
  { area := 99, x := 0, y := 0, w := 7, h := 10, vertices := 4, hullArea := 99 }

/-- C3 is false as stated: `contourC3` (area ratio 0.99 on a 100-pixel
image) passes all the §3 bounds of the claim but is discarded before
scoring. -/
theorem candidate_filter_counterexample :
    (minCardAreaRatio ≤ contourC3.area / 100 ∧
      contourC3.area / 100 ≤ maxCardAreaRatio ∧
      |aspectOf contourC3 - cardAspectRatio| ≤ aspectRatioTolerance ∧
      4 ≤ contourC3.vertices ∧ contourC3.vertices ≤ 12) ∧
    mkCandidate 100 contourC3 = none := by
  constructor
  · refine ⟨by norm_num [minCardAreaRatio, contourC3], ?_, ?_, ?_, ?_⟩
    · norm_num [contourC3, maxCardAreaRatio]
    · norm_num [contourC3, aspectOf, cardAspectRatio, aspectRatioTolerance,
        abs_le]
    · norm_num [contourC3]
    · norm_num [contourC3]
  · norm_num [mkCandidate, contourC3, minCardAreaRatio]

/-- C3 (amended): a contour becomes a scored candidate if and only if
MIN_CARD_AREA_RATIO ≤ area_ratio ≤ 0.98 (the hard-coded cutoff, not
MAX_CARD_AREA_RATIO = 1.00), |aspect − CARD_ASPECT_RATIO| ≤
ASPECT_RATIO_TOLERANCE, and 4 ≤ vertex count ≤ 12; every contour failing
one of these bounds is discarded before scoring. -/
theorem candidate_filter_iff_amended (imageArea : ℚ) (c : ContourStats) :
    (mkCandidate imageArea c).isSome = true ↔
      (minCardAreaRatio ≤ c.area / imageArea ∧ c.area / imageArea ≤ 0.98 ∧
        |aspectOf c - cardAspectRatio| ≤ aspectRatioTolerance ∧
        4 ≤ c.vertices ∧ c.vertices ≤ 12) := by
  simp only [mkCandidate]
  split_ifs with h1 h2 h3 <;>
    (try simp only [Option.isSome_none, Option.isSome_some,
      Bool.false_eq_true, false_iff, true_iff])
  · rintro ⟨ha, hb, -, -⟩
    rcases h1 with h1 | h1 <;> linarith
  · rintro ⟨-, -, hd, -⟩
    linarith
  · push_neg at h1
    exact ⟨h1.1, h1.2, le_of_not_lt h2, h3⟩
  · push_neg at h1
    exact ⟨h1.1, h1.2, le_of_not_lt h2, h3⟩
  · rintro ⟨-, -, -, hv⟩
    exact h3 hv

/-- C1 (amended): for every decodable image, on every non-exception return
path (no-candidate, extraction-failure, success) `crop_card` returns a
result whose `original_size` is exactly the decoded `[width, height]` and
whose confidence field is present and lies in [0, 1]; on the reachable
exception path — the empty-strip `cvtColor` crash for landscape crops of
width ≤ 8, caught by the generic handler — the result instead has
success=false, the "Error processing image: " message, and neither
`original_size` nor `confidence`. -/
theorem crop_card_confidence_and_size {α : Type} (hsvc : α → HSVv)
    (image : Img α) (contours : List ContourStats) (scr : Bool) :
    ((crop_card hsvc (some image) contours scr).original_size =
        some [image.w, image.h] ∧
      ∃ c, (crop_card hsvc (some image) contours scr).confidence = some c ∧
        0 ≤ c ∧ c ≤ 1) ∨
    ((crop_card hsvc (some image) contours scr).success = false ∧
      (crop_card hsvc (some image) contours scr).original_size = none ∧
      (crop_card hsvc (some image) contours scr).confidence = none ∧
      (crop_card hsvc (some image) contours scr).message =
        "Error processing image: " ++ cvtColorEmptyError) := by
  rcases hdet : detect_card ((image.h : ℚ) * (image.w : ℚ)) contours
    with _ | ⟨bb, conf⟩
  · simp only [crop_card, hdet]
    exact Or.inl ⟨by trivial, 0.0, by trivial, by norm_num, by norm_num⟩
  · have hc := detect_card_conf_mem _ _ _ _ hdet
    rcases hext : extract_card_bbox hsvc image bb (!scr) with e | o
    · have he := extract_card_bbox_error hsvc image bb (!scr) e hext
      subst he
      simp only [crop_card, hdet, hext]
      exact Or.inr ⟨by trivial, by trivial, by trivial, by trivial⟩
    · rcases o with _ | f
      · simp only [crop_card, hdet, hext]
        exact Or.inl ⟨by trivial, conf, by trivial, hc.1, hc.2⟩
      · simp only [crop_card, hdet, hext]
        exact Or.inl ⟨by trivial, conf, by trivial, hc.1, hc.2⟩

/-- A 2x2 single-pixel-type image used by witnesses. -/
def unitImg2 : Img Unit := { h := 2, w := 2, pix := fun _ _ => () }

/-- A trivial colour conversion for witnesses over `Img Unit`. -/
def unitHsv : Unit → HSVv := fun _ => { hu := 0, sa := 0, va := 0 }

/-- C1 counterexample image: 56 wide, 14 high (decodable, mean-dark scene
modelled by its measured contour below). -/
def imgCrash : Img Unit := { h := 14, w := 56, pix := fun _ _ => () }

/-- C1 counterexample contour: a bright 8x5 rectangle on `imgCrash` — area
ratio 40/784 ≈ 0.051, aspect 5/8 (within tolerance), 4 vertices — whose
8x5 landscape crop has `strip_width = int(8 * 0.12) = 0`, so the
orientation corrector's `cvtColor` raises on the empty strip. -/
def contourCrash : ContourStats :=
  { area := 40, x := 0, y := 0, w := 8, h := 5, vertices := 4,
    hullArea := 40 }

/-- C1 is false as stated: on this decodable image the pipeline takes the
generic exception path (empty-strip `cvtColor` crash in the orientation
corrector) and returns a dictionary with no `original_size` and no
`confidence` at all. -/
theorem crop_card_crash_counterexample :
    (crop_card unitHsv (some imgCrash) [contourCrash] false).original_size =
        none ∧
      (crop_card unitHsv (some imgCrash) [contourCrash]
        false).confidence = none ∧
      (crop_card unitHsv (some imgCrash) [contourCrash]
        false).success = false ∧
      (crop_card unitHsv (some imgCrash) [contourCrash] false).message =
        "Error processing image: " ++ cvtColorEmptyError := by
  have hA : ¬(contourCrash.area / ((imgCrash.h : ℚ) * (imgCrash.w : ℚ)) <
      minCardAreaRatio ∨
      contourCrash.area / ((imgCrash.h : ℚ) * (imgCrash.w : ℚ)) > 0.98) := by
    norm_num [contourCrash, imgCrash, minCardAreaRatio]
  have hB : ¬(|aspectOf contourCrash - cardAspectRatio| >
      aspectRatioTolerance) := by
    norm_num [contourCrash, aspectOf, cardAspectRatio, aspectRatioTolerance,
      Nat.max_def, Nat.min_def, abs_le]
  have hC : ¬¬(4 ≤ contourCrash.vertices ∧ contourCrash.vertices ≤ 12) := by
    decide
  have hmk : mkCandidate ((imgCrash.h : ℚ) * (imgCrash.w : ℚ)) contourCrash =
      some
      { bx := contourCrash.x, by' := contourCrash.y, bw := contourCrash.w
        bh := contourCrash.h
        confidence := calculate_confidence_advanced
          (contourCrash.area / ((imgCrash.h : ℚ) * (imgCrash.w : ℚ)))
          (aspectOf contourCrash) contourCrash.vertices
          (if contourCrash.hullArea > 0 then
            contourCrash.area / contourCrash.hullArea else 0) false
        area_ratio :=
          contourCrash.area / ((imgCrash.h : ℚ) * (imgCrash.w : ℚ))
        aspect_ratio := aspectOf contourCrash
        solidity := if contourCrash.hullArea > 0 then
          contourCrash.area / contourCrash.hullArea else 0 } := by
    simp only [mkCandidate, if_neg hA, if_neg hB, if_neg hC]
  have hdet : detect_card ((imgCrash.h : ℚ) * (imgCrash.w : ℚ))
      [contourCrash] = some
      ((contourCrash.x, contourCrash.y, contourCrash.w, contourCrash.h),
        calculate_confidence_advanced
          (contourCrash.area / ((imgCrash.h : ℚ) * (imgCrash.w : ℚ)))
          (aspectOf contourCrash) contourCrash.vertices
          (if contourCrash.hullArea > 0 then
            contourCrash.area / contourCrash.hullArea else 0) false) := by
    simp only [detect_card, List.filterMap_cons, List.filterMap_nil, hmk,
      pickBest, List.foldl_nil]
  have hext : extract_card_bbox unitHsv imgCrash
      (contourCrash.x, contourCrash.y, contourCrash.w, contourCrash.h)
      (!false) = Except.error cvtColorEmptyError := rfl
  simp only [crop_card, hdet, hext]
  exact ⟨by trivial, by trivial, by trivial, by trivial⟩

/-- C2: `crop_card` never raises to its caller: every path, including the
modelled internal `cvtColor` raise caught by the generic handler, produces
a structured dictionary.  A decode failure returns exactly the
"Failed to decode image" dictionary with no confidence field; the
no-candidate case returns success=false, confidence 0.0 and the no-card
message; and every non-success result carries a non-empty human-readable
message. -/
theorem crop_card_failure_paths {α : Type} (hsvc : α → HSVv)
    (decoded : Option (Img α)) (contours : List ContourStats) (scr : Bool) :
    (crop_card hsvc none contours scr =
      { success := false, message := "Failed to decode image",
        error := some "Invalid image format", confidence := none,
        original_size := none, cropped_size := none,
        cropped_image := false }) ∧
    (∀ image : Img α, decoded = some image →
      detect_card ((image.h : ℚ) * (image.w : ℚ)) contours = none →
      (crop_card hsvc decoded contours scr).success = false ∧
        (crop_card hsvc decoded contours scr).confidence = some 0.0 ∧
        (crop_card hsvc decoded contours scr).message =
          "No card detected in image. Please ensure the card is clearly visible.") ∧
    ((crop_card hsvc decoded contours scr).success = false →
      (crop_card hsvc decoded contours scr).message ≠ "") := by
  refine ⟨rfl, ?_, ?_⟩
  · rintro image rfl hdet
    simp only [crop_card]
    rw [hdet]
    exact ⟨rfl, rfl, rfl⟩
  · intro _
    rcases decoded with _ | image
    · show ("Failed to decode image" : String) ≠ ""
      decide
    · rcases hdet : detect_card ((image.h : ℚ) * (image.w : ℚ)) contours
        with _ | ⟨bb, conf⟩
      · simp only [crop_card, hdet]
        decide
      · rcases hext : extract_card_bbox hsvc image bb (!scr) with e | o
        · have he := extract_card_bbox_error hsvc image bb (!scr) e hext
          subst he
          simp only [crop_card, hdet, hext]
          decide
        · rcases o with _ | f
          · simp only [crop_card, hdet, hext]
            decide
          · simp only [crop_card, hdet, hext]
            decide

/-- Witness for C2: on a concrete 2x2 image with no contours, the pipeline
takes the no-candidate path with success=false, confidence 0.0 and the
no-card message. -/
theorem crop_card_failure_paths_witness :
    (crop_card unitHsv (some unitImg2) ([] : List ContourStats)
        false).success = false ∧
      (crop_card unitHsv (some unitImg2) ([] : List ContourStats)
        false).confidence = some 0.0 ∧
      (crop_card unitHsv (some unitImg2) ([] : List ContourStats)
        false).message =
        "No card detected in image. Please ensure the card is clearly visible." :=
  (crop_card_failure_paths unitHsv (some unitImg2) [] false).2.1
    unitImg2 rfl rfl

/-- C10: `_extract_card_bbox` never returns None on any execution path
(proved for every bounding box, hence in particular those with w > 0 and
h > 0 lying within the image — it either returns an image or raises), so
the "Failed to extract card from image" branch of `crop_card` — the
ExtractionError result echoing the detection confidence — is unreachable:
no input produces that message; an extraction-stage fault surfaces only
through the generic exception handler with its different,
"Error processing image: "-prefixed message. -/
theorem extract_card_bbox_never_none {α : Type} (hsvc : α → HSVv)
    (image : Img α) (bbox : ℕ × ℕ × ℕ × ℕ) (m : Bool) :
    extract_card_bbox hsvc image bbox m ≠
        Except.ok (none : Option (Img α)) ∧
    ∀ (decoded : Option (Img α)) (contours : List ContourStats) (scr : Bool),
      (crop_card hsvc decoded contours scr).message ≠
        "Failed to extract card from image" := by
  constructor
  · simp only [extract_card_bbox]
    exact except_map_some_ne_ok_none _
  · intro decoded contours scr
    rcases decoded with _ | img
    · show ("Failed to decode image" : String) ≠ "Failed to extract card from image"
      decide
    · rcases hdet : detect_card ((img.h : ℚ) * (img.w : ℚ)) contours
        with _ | ⟨bb, conf⟩
      · simp only [crop_card, hdet]
        decide
      · rcases hext : extract_card_bbox hsvc img bb (!scr) with e | o
        · have he := extract_card_bbox_error hsvc img bb (!scr) e hext
          subst he
          simp only [crop_card, hdet, hext]
          decide
        · rcases o with _ | f
          · exact absurd hext (by
              simp only [extract_card_bbox]
              exact except_map_some_ne_ok_none _)
          · simp only [crop_card, hdet, hext]
            decide

/-- C4 counterexample contour: a single 4-vertex contour covering 100% of a
10-wide, 14-high image (area ratio exactly 1, aspect ratio exactly 2.5/3.5). -/
def contourFull : ContourStats :=
  { area := 140, x := 0, y := 0, w := 10, h := 14, vertices := 4,
    hullArea := 140 }

/-- C4 is false as stated: the full-frame contour (area ratio 1.0, aspect
ratio 2.5/3.5, 4 vertices) is rejected by the area filter (1.0 > 0.98), so
the pipeline reports no detection (confidence 0.0) instead of a detection
with confidence at least 0.9. -/
theorem full_frame_contour_rejected :
    contourFull.area / (140 : ℚ) = 1 ∧
      aspectOf contourFull = cardAspectRatio ∧
      contourFull.vertices = 4 ∧
      detect_card 140 [contourFull] = none := by
  refine ⟨by norm_num [contourFull], ?_, by norm_num [contourFull], ?_⟩
  · norm_num [aspectOf, contourFull, cardAspectRatio, Nat.max_def,
      Nat.min_def]
  · have hnone : mkCandidate 140 contourFull = none := by
      simp only [mkCandidate]
      rw [if_pos]
      right
      norm_num [contourFull]
    simp only [detect_card, List.filterMap_cons, List.filterMap_nil, hnone]

/-- C4 (amended): a single contour with area ratio in the (0.70, 0.95] band
— e.g. covering 95% of the image pixels instead of 100% — whose aspect
ratio is within 0.08 of the 2.5/3.5 card ratio and whose polygon
approximation has 4 vertices is accepted by the filter and produces a
detection with confidence at least 0.9 (in fact at least 0.964). -/
theorem large_area_candidate_high_confidence (imageArea : ℚ)
    (c : ContourStats) (h1 : 0.70 < c.area / imageArea)
    (h2 : c.area / imageArea ≤ 0.95)
    (h3 : |aspectOf c - cardAspectRatio| < 0.08) (h4 : c.vertices = 4) :
    ∃ bb conf, detect_card imageArea [c] = some (bb, conf) ∧ 0.9 ≤ conf := by
  have hA : ¬(c.area / imageArea < minCardAreaRatio ∨
      c.area / imageArea > 0.98) := by
    rintro (g | g)
    · rw [minCardAreaRatio] at g
      linarith
    · linarith
  have hB : ¬(|aspectOf c - cardAspectRatio| > aspectRatioTolerance) := by
    rw [aspectRatioTolerance]
    push_neg
    linarith
  have hC : ¬¬(4 ≤ c.vertices ∧ c.vertices ≤ 12) := by
    rw [h4]
    decide
  have hmk : mkCandidate imageArea c = some
      { bx := c.x, by' := c.y, bw := c.w, bh := c.h
        confidence := calculate_confidence_advanced (c.area / imageArea)
          (aspectOf c) c.vertices
          (if c.hullArea > 0 then c.area / c.hullArea else 0) false
        area_ratio := c.area / imageArea
        aspect_ratio := aspectOf c
        solidity := if c.hullArea > 0 then c.area / c.hullArea else 0 } := by
    simp only [mkCandidate, if_neg hA, if_neg hB, if_neg hC]
  refine ⟨(c.x, c.y, c.w, c.h),
    calculate_confidence_advanced (c.area / imageArea) (aspectOf c)
      c.vertices (if c.hullArea > 0 then c.area / c.hullArea else 0) false,
    ?_, ?_⟩
  · simp only [detect_card, List.filterMap_cons, List.filterMap_nil, hmk,
      pickBest, List.foldl_nil]
  · rw [calculate_confidence_eq_spec]
    have ha : aspectScoreSpec (aspectOf c) = 1.0 := by
      rw [cardAspectRatio] at h3
      simp only [aspectScoreSpec]
      rw [if_pos h3]
    have hr : areaScoreSpec (c.area / imageArea) = 0.98 := by
      simp only [areaScoreSpec]
      rw [if_neg, if_pos ⟨h1, h2⟩]
      rintro ⟨-, g⟩
      linarith
    have hv : vertexScoreSpec c.vertices = 1.0 := by
      rw [h4]
      norm_num [vertexScoreSpec]
    have hso := solidityScoreSpec_bounds
      (if c.hullArea > 0 then c.area / c.hullArea else 0)
    rw [ha, hr, hv]
    nlinarith [hso.1]

/-- C4 witness contour: area 80 on a 100-pixel image (ratio 0.80), bounding
box 5x7 (aspect exactly 2.5/3.5), 4 vertices, hull area 100. -/
def contourW : ContourStats :=
  { area := 80, x := 0, y := 0, w := 5, h := 7, vertices := 4,
    hullArea := 100 }

/-- Witness for the amended C4 at a concrete contour. -/
theorem large_area_candidate_high_confidence_witness :
    ∃ bb conf, detect_card 100 [contourW] = some (bb, conf) ∧ 0.9 ≤ conf :=
  large_area_candidate_high_confidence 100 contourW
    (by norm_num [contourW]) (by norm_num [contourW])
    (by norm_num [contourW, aspectOf, cardAspectRatio, Nat.max_def,
      Nat.min_def])
    (by norm_num [contourW])

/-- C6 counterexample: with `apply_margin = false` the code still clamps to
the image bounds, so an out-of-bounds box (0, 0, 100, 100) on a 50x50
image yields the region (0, 0, 50, 50), not the raw bounding box
(0, 0, 100, 100) the claim promises for every box with w > 0 and h > 0. -/
theorem screenshot_raw_box_counterexample :
    insetRegion 50 50 0 0 100 100 false = (0, 0, 50, 50) ∧
      ((0, 0, 50, 50) : ℕ × ℕ × ℕ × ℕ) ≠ (0, 0, 0 + 100, 0 + 100) := by
  exact ⟨rfl, by decide⟩

/-- C6 (amended): in both margin modes the extractor computes the inset
box (2% of each side when `apply_margin` is true, zero margins for
screenshots), clamps it to the image bounds, and falls back to the
un-inset bounding box (x, y, x+w, y+h) when the clamped box has zero or
negative width or height; in particular, when `apply_margin` is false the
raw bounding box is used whenever the box lies within the image bounds (as
every detector-produced box does). -/
theorem inset_region_amended (imgW imgH x y w h : ℕ) (m : Bool) :
    insetRegion imgW imgH x y w h m = insetRegionSpec imgW imgH x y w h m ∧
      (x + w ≤ imgW → y + h ≤ imgH →
        insetRegion imgW imgH x y w h false = (x, y, x + w, y + h)) :=
  ⟨insetRegion_eq_spec imgW imgH x y w h m,
    fun hx hy => insetRegion_false_raw imgW imgH x y w h hx hy⟩

/-- Witness for the amended C6 at a concrete in-bounds box. -/
theorem inset_region_amended_witness :
    insetRegion 100 100 10 20 30 40 true =
        insetRegionSpec 100 100 10 20 30 40 true ∧
      insetRegion 100 100 10 20 30 40 false = (10, 20, 10 + 30, 20 + 40) :=
  ⟨(inset_region_amended 100 100 10 20 30 40 true).1,
    (inset_region_amended 100 100 10 20 30 40 false).2 (by decide)
      (by decide)⟩

/-- Conversion sending every natural-number pixel to black in HSV. -/
def natHsv : ℕ → HSVv := fun _ => { hu := 0, sa := 0, va := 0 }

/-- A 5-high, 8-wide all-black landscape crop: its strip width is
`int(8 * 0.12) = 0`, so the edge strips are empty. -/
def smallImg : Img ℕ := { h := 5, w := 8, pix := fun _ _ => 0 }

/-- C7 is false as stated: on a landscape crop of width 8 the strip width
`int(w * 0.12)` is 0, both edge strips are empty, and `cv2.cvtColor`
raises instead of the corrector producing the claimed default clockwise
rotation. -/
theorem small_strip_crash_counterexample :
    smallImg.w > smallImg.h ∧
      uprightIfSideways natHsv smallImg = Except.error cvtColorEmptyError ∧
      uprightIfSideways natHsv smallImg ≠ Except.ok (rotate90cw smallImg) := by
  refine ⟨by decide, rfl, ?_⟩
  intro h
  exact Except.noConfusion
    ((rfl : uprightIfSideways natHsv smallImg =
      Except.error cvtColorEmptyError).symm.trans h)

/-- C7 (amended): a cropped region whose width is not greater than its
height is returned unrotated; a landscape region whose 12% edge strips are
nonempty (positive height and strip width, i.e. width ≥ 9) is rotated 90°
counter-clockwise exactly when the right strip's label score
max(red, 1.5·blue) strictly exceeds the left strip's, and 90° clockwise
otherwise (including the zero-signal and tied cases); a landscape region
with an empty strip (width ≤ 8 or height 0) instead raises the `cvtColor`
empty-source error, which surfaces through the facade's generic handler. -/
theorem rotate_decision_amended {α : Type} (hsvc : α → HSVv)
    (crop : Img α) :
    (crop.w ≤ crop.h → uprightIfSideways hsvc crop = Except.ok crop) ∧
    (crop.w > crop.h →
      ¬((leftStrip crop).h = 0 ∨ (leftStrip crop).w = 0) →
      uprightIfSideways hsvc crop = Except.ok
        (if psaScoreRight hsvc crop > psaScoreLeft hsvc crop
          then rotate90ccw crop else rotate90cw crop)) ∧
    (crop.w > crop.h →
      ((leftStrip crop).h = 0 ∨ (leftStrip crop).w = 0) →
      uprightIfSideways hsvc crop = Except.error cvtColorEmptyError) := by
  refine ⟨?_, ?_, ?_⟩
  · intro hle
    simp only [uprightIfSideways]
    rw [if_neg (not_lt.mpr hle)]
  · intro hgt hne
    simp only [uprightIfSideways, rotate_to_upright]
    rw [if_pos hgt, if_neg hne]
    split_ifs <;> rfl
  · intro hgt he
    simp only [uprightIfSideways, rotate_to_upright]
    rw [if_pos hgt, if_pos he]

/-- A 2x10 all-black landscape crop (no red, no blue anywhere); its strip
width is `int(10 * 0.12) = 1`, so the strips are nonempty. -/
def flatImg : Img ℕ := { h := 2, w := 10, pix := fun _ _ => 0 }

lemma psaScoreLeft_flatImg : psaScoreLeft natHsv flatImg = 0 := by
  have h1 : countPix (leftStrip flatImg) (fun a => isRedPixel (natHsv a)) = 0 := by
    decide
  have h2 : countPix (leftStrip flatImg) (fun a => isBluePixel (natHsv a)) = 0 := by
    decide
  rw [psaScoreLeft, psaScore, h1, h2]
  norm_num

lemma psaScoreRight_flatImg : psaScoreRight natHsv flatImg = 0 := by
  have h1 : countPix (rightStrip flatImg) (fun a => isRedPixel (natHsv a)) = 0 := by
    decide
  have h2 : countPix (rightStrip flatImg) (fun a => isBluePixel (natHsv a)) = 0 := by
    decide
  rw [psaScoreRight, psaScore, h1, h2]
  norm_num

/-- Witness for the amended C7: on the all-black 2x10 landscape crop the
strips are nonempty (width 10 > height 2, strip width 1), so the rotation
branch of the amended claim applies. -/
theorem rotate_decision_amended_witness :
    uprightIfSideways natHsv flatImg = Except.ok
      (if psaScoreRight natHsv flatImg > psaScoreLeft natHsv flatImg
        then rotate90ccw flatImg else rotate90cw flatImg) :=
  (rotate_decision_amended natHsv flatImg).2.1 (by decide) (by decide)

/-- C8 counterexample: on the all-black landscape crop both strips score
zero, so the corrector rotates clockwise — and rotates the horizontally
mirrored crop clockwise as well: the same direction, not the opposite one
the claim promises. -/
theorem mirror_same_direction_counterexample :
    flatImg.w > flatImg.h ∧
      rotateDecisionCCW natHsv flatImg = false ∧
      rotateDecisionCCW natHsv (mirrorH flatImg) = false := by
  refine ⟨by decide, ?_, ?_⟩
  · rw [rotateDecisionCCW, psaScoreLeft_flatImg, psaScoreRight_flatImg]
    decide
  · rw [rotateDecisionCCW, psaScoreLeft_mirrorH, psaScoreRight_mirrorH,
      psaScoreLeft_flatImg, psaScoreRight_flatImg]
    decide

/-- C8 (amended): whenever a landscape crop is successfully rotated (its
edge strips are nonempty, i.e. width ≥ 9 and positive height), the
corrector's output has width and height exactly swapped, so every
successfully extracted region is portrait (height ≥ width); the
mirrored-strip law holds whenever the two label scores differ — the
mirrored crop is rotated in the opposite direction — while on exactly
equal scores (in particular the zero-signal case) both the crop and its
mirror are rotated clockwise; a landscape crop with empty strips raises
instead and produces no output at all. -/
theorem orientation_law_amended {α : Type} (hsvc : α → HSVv)
    (crop : Img α) :
    (crop.w > crop.h → ∀ out : Img α,
      uprightIfSideways hsvc crop = Except.ok out →
      out.w = crop.h ∧ out.h = crop.w) ∧
    (∀ out : Img α, uprightIfSideways hsvc crop = Except.ok out →
      out.w ≤ out.h) ∧
    (psaScoreLeft hsvc crop ≠ psaScoreRight hsvc crop →
      rotateDecisionCCW hsvc (mirrorH crop) = !(rotateDecisionCCW hsvc crop)) ∧
    (psaScoreLeft hsvc crop = psaScoreRight hsvc crop →
      rotateDecisionCCW hsvc crop = false ∧
        rotateDecisionCCW hsvc (mirrorH crop) = false) := by
  refine ⟨?_, ?_, ?_, ?_⟩
  · intro hgt out hout
    simp only [uprightIfSideways, rotate_to_upright, if_pos hgt] at hout
    split_ifs at hout <;>
      first
        | exact Except.noConfusion hout
        | (rw [Except.ok.injEq] at hout; rw [← hout]; exact ⟨rfl, rfl⟩)
  · intro out hout
    by_cases hgt : crop.w > crop.h
    · simp only [uprightIfSideways, rotate_to_upright, if_pos hgt] at hout
      split_ifs at hout <;>
        first
          | exact Except.noConfusion hout
          | (rw [Except.ok.injEq] at hout; rw [← hout]
             simp only [rotate90ccw, rotate90cw]
             omega)
    · simp only [uprightIfSideways, if_neg hgt] at hout
      rw [Except.ok.injEq] at hout
      rw [← hout]
      omega
  · intro hne
    simp only [rotateDecisionCCW, psaScoreRight_mirrorH, psaScoreLeft_mirrorH]
    by_cases hRL : psaScoreLeft hsvc crop < psaScoreRight hsvc crop
    · have hnot : ¬ psaScoreRight hsvc crop < psaScoreLeft hsvc crop :=
        not_lt.mpr (le_of_lt hRL)
      simp [hRL, hnot]
    · have hgt : psaScoreRight hsvc crop < psaScoreLeft hsvc crop :=
        lt_of_le_of_ne (not_lt.mp hRL) (Ne.symm hne)
      have hnot : ¬ psaScoreLeft hsvc crop < psaScoreRight hsvc crop :=
        not_lt.mpr (le_of_lt hgt)
      simp [hgt, hnot]
  · intro heq
    constructor
    · simp only [rotateDecisionCCW, heq]
      simp [lt_irrefl]
    · simp only [rotateDecisionCCW, psaScoreRight_mirrorH,
        psaScoreLeft_mirrorH, heq]
      simp [lt_irrefl]

/-- A 2x10 landscape crop whose rightmost column is PSA-label red
(hue 0, saturation 200, value 200), everything else black. -/
def redImg : Img HSVv :=
  { h := 2, w := 10,
    pix := fun _ j =>
      if 9 ≤ j then { hu := 0, sa := 200, va := 200 }
      else { hu := 0, sa := 0, va := 0 } }

/-- Identity conversion: `redImg` stores its pixels directly in HSV. -/
def idHsv : HSVv → HSVv := fun q => q

lemma psaScoreLeft_redImg : psaScoreLeft idHsv redImg = 0 := by
  have h1 : countPix (leftStrip redImg) (fun a => isRedPixel (idHsv a)) = 0 := by
    decide
  have h2 : countPix (leftStrip redImg) (fun a => isBluePixel (idHsv a)) = 0 := by
    decide
  rw [psaScoreLeft, psaScore, h1, h2]
  norm_num

lemma psaScoreRight_redImg : psaScoreRight idHsv redImg = 2 := by
  have h1 : countPix (rightStrip redImg) (fun a => isRedPixel (idHsv a)) = 2 := by
    decide
  have h2 : countPix (rightStrip redImg) (fun a => isBluePixel (idHsv a)) = 0 := by
    decide
  rw [psaScoreRight, psaScore, h1, h2]
  norm_num [max_def]

/-- Witness for the amended C8: the red-labelled crop has unequal strip
scores, and the mirrored crop is indeed rotated in the opposite direction. -/
theorem orientation_law_amended_witness :
    rotateDecisionCCW idHsv (mirrorH redImg) =
      !(rotateDecisionCCW idHsv redImg) :=
  (orientation_law_amended idHsv redImg).2.2.1
    (by rw [psaScoreLeft_redImg, psaScoreRight_redImg]; norm_num)

/-- C9: segmentation strategy selection is a strict priority — wood
whenever the wood detector fires, else dark-background (threshold at 40
OR'd with Canny 50/150) whenever mean luminance < 100, else
light-background — and the chosen mask then undergoes a 5x5 close
(2 iterations) followed by a 5x5 open (1 iteration). -/
theorem segment_strategy_priority (ops : CvOps) (gray : Img ℕ)
    (hsvI : Img HSVv) :
    (detect_wood_background hsvI = true →
      segmentMask ops gray hsvI =
        ops.morphOpen (ops.morphClose (detect_card_on_wood ops gray hsvI)
          5 2) 5 1) ∧
    (detect_wood_background hsvI = false → meanBrightness gray < 100 →
      segmentMask ops gray hsvI =
        ops.morphOpen (ops.morphClose
          (bitwiseOr (thresholdBin gray 40) (ops.canny gray 50 150)) 5 2)
          5 1) ∧
    (detect_wood_background hsvI = false → ¬(meanBrightness gray < 100) →
      segmentMask ops gray hsvI =
        ops.morphOpen (ops.morphClose
          (bitwiseOr (bitwiseOr (ops.canny gray 30 100)
            (thresholdBinInv gray 200)) (ops.adaptiveThresholdInv gray 11 2))
          5 2) 5 1) := by
  refine ⟨?_, ?_, ?_⟩
  · intro hw
    simp only [segmentMask, hw, eq_self_iff_true, if_true]
  · intro hw hm
    simp only [segmentMask, hw, Bool.false_eq_true, if_false, if_pos hm]
  · intro hw hm
    simp only [segmentMask, hw, Bool.false_eq_true, if_false, if_neg hm]

/-- Trivial instantiation of the abstract OpenCV primitives, used only to
instantiate the strategy-selection theorem at a concrete point. -/
def idOps : CvOps :=
  { canny := fun g _ _ => g
    adaptiveThresholdInv := fun g _ _ => g
    gaussianBlur := fun g _ => g
    dilate := fun g _ _ => g
    morphClose := fun g _ _ => g
    morphOpen := fun g _ _ => g }

/-- A 1x1 grey image of luminance 50 (dark background). -/
def gray1 : Img ℕ := { h := 1, w := 1, pix := fun _ _ => 50 }

/-- A 1x1 HSV image with no wood tones. -/
def hsv1 : Img HSVv := { h := 1, w := 1, pix := fun _ _ => { hu := 0, sa := 0, va := 0 } }

/-- Witness for C9: on a dark non-wood image the dark-background strategy
is selected and post-processed exactly as stated. -/
theorem segment_strategy_priority_witness :
    segmentMask idOps gray1 hsv1 =
      idOps.morphOpen (idOps.morphClose
        (bitwiseOr (thresholdBin gray1 40) (idOps.canny gray1 50 150)) 5 2)
        5 1 :=
  (segment_strategy_priority idOps gray1 hsv1).2.1
    (by
      have hc : countPix (inRangeMask hsv1 ⟨10, 30, 30⟩ ⟨30, 200, 180⟩)
          (fun v => decide (v > 0)) = 0 := by decide
      simp only [detect_wood_background, hc]
      rw [decide_eq_false_iff_not]
      norm_num [hsv1, inRangeMask])
    (by
      have hm : meanBrightness gray1 = 50 := by
        simp only [meanBrightness, gray1, Finset.sum_range_one]
        norm_num
      rw [hm]
      norm_num)
